import Mathlib

/-!
Verification of the MathLib `Matrix` component (src/include/Matrix.h,
src/src/Matrix.cpp): a dense 2-D matrix of doubles with a validating
constructor, bounds-checked `get`/`set`, elementwise `add` and the
standard triple-loop `multiply`.

Embedding conventions:
* `double` values are modelled as exact rationals `ℚ`; every operation the
  component performs (`+`, `*`, comparisons with `0`) is exact on the
  inputs the claims use.
* C++ exceptions are modelled with `Except MatrixError`; the three
  `throw` sites map to the three constructors of `MatrixError`.
* A raw `data[i][j]` access on `std::vector` (unchecked, undefined
  behaviour when out of bounds) is modelled as `Option`-returning list
  indexing; `none` marks the undefined-behaviour branch.  An operation
  therefore has type `Except MatrixError (Option _)`: an `.error` is a
  thrown exception, `.ok none` is undefined behaviour in a raw access,
  `.ok (some _)` is a normal return.
* Mutation (`set`) and freshness of `add`/`multiply` results are stated
  over an explicit store of live instances, `List Matrix`, with handles
  as list indices.
-/

namespace MathLib

/-- The three error kinds thrown by the component: `std::invalid_argument`
from the constructor, `std::out_of_range` from `get`/`set`, and
`std::invalid_argument` from `add`/`multiply` on shape mismatch. -/
inductive MatrixError where
  | invalidDimensions
  | indexOutOfRange
  | dimensionMismatch
deriving DecidableEq, Repr

/-- The `Matrix` record: `rows`/`cols` are C++ `int`s (modelled as `Int`),
`data` is the nested `std::vector<std::vector<double>>`. -/
structure Matrix where
  rows : Int
  cols : Int
  data : List (List ℚ)
deriving DecidableEq, Repr

/-- Raw unchecked read `d[i][j]` on the nested vector: `none` is the
out-of-bounds (undefined-behaviour) branch. -/
def rawGet (d : List (List ℚ)) (i j : Nat) : Option ℚ :=
  (d[i]?).bind (fun row => row[j]?)

/-- Raw unchecked write `d[i][j] = v` on the nested vector: `none` is the
out-of-bounds (undefined-behaviour) branch. -/
def rawSet (d : List (List ℚ)) (i j : Nat) (v : ℚ) : Option (List (List ℚ)) :=
  (d[i]?).bind (fun row =>
    (row[j]?).bind (fun _ => some (d.set i (row.set j v))))

/-- A `for (x = 0; x < n; ++x)` loop that produces one element per
iteration from raw reads, collecting the results in order; `none`
propagates undefined behaviour from any iteration. -/
def optTab (f : Nat → Option ℚ) : Nat → Option (List ℚ)
  | 0 => some []
  | n + 1 =>
    (optTab f n).bind (fun init => (f n).bind (fun last => some (init ++ [last])))

/-- Same loop shape at the row level (used for the outer `i` loops). -/
def optTabRow (f : Nat → Option (List ℚ)) : Nat → Option (List (List ℚ))
  | 0 => some []
  | n + 1 =>
    (optTabRow f n).bind (fun init => (f n).bind (fun last => some (init ++ [last])))

/-- The accumulator loop `double sum = 0.0; for (k = 0; k < n; ++k) sum += f(k);`
from `Matrix::multiply`. -/
def optSum (f : Nat → Option ℚ) : Nat → Option ℚ
  | 0 => some 0
  | n + 1 =>
    (optSum f n).bind (fun s => (f n).bind (fun t => some (s + t)))

/-- `Matrix::Matrix(int r, int c)`: throws `invalid_argument` when
`r <= 0 || c <= 0`, otherwise resizes `data` to `rows` rows of `cols`
zeros each. -/
def Matrix.construct (r c : Int) : Except MatrixError Matrix :=
  if r ≤ 0 ∨ c ≤ 0 then .error .invalidDimensions
  else .ok ⟨r, c, List.replicate r.toNat (List.replicate c.toNat 0)⟩

/-- The index guard shared by `Matrix::get` and `Matrix::set`:
`r < 0 || r >= rows || c < 0 || c >= cols`. -/
def Matrix.oob (m : Matrix) (r c : Int) : Prop :=
  r < 0 ∨ m.rows ≤ r ∨ c < 0 ∨ m.cols ≤ c

instance (m : Matrix) (r c : Int) : Decidable (m.oob r c) := by
  unfold Matrix.oob; infer_instance

/-- `Matrix::get(int r, int c)`: throws `out_of_range` when the guard
fires, otherwise returns `data[r][c]` (a raw access). -/
def Matrix.get (m : Matrix) (r c : Int) : Except MatrixError (Option ℚ) :=
  if m.oob r c then .error .indexOutOfRange
  else .ok (rawGet m.data r.toNat c.toNat)

/-- `Matrix::set(int r, int c, double value)`: throws `out_of_range` when
the guard fires, otherwise performs the raw write `data[r][c] = value`. -/
def Matrix.set (m : Matrix) (r c : Int) (v : ℚ) : Except MatrixError (Option Matrix) :=
  if m.oob r c then .error .indexOutOfRange
  else .ok ((rawSet m.data r.toNat c.toNat v).map (fun d => ⟨m.rows, m.cols, d⟩))

/-- `Matrix::add(const Matrix&)`: throws `invalid_argument` unless the
shapes agree, then builds `Matrix result(rows, cols)` and fills
`result.data[i][j] = data[i][j] + other.data[i][j]` over the double loop. -/
def Matrix.add (m other : Matrix) : Except MatrixError (Option Matrix) :=
  if m.rows ≠ other.rows ∨ m.cols ≠ other.cols then .error .dimensionMismatch
  else
    match Matrix.construct m.rows m.cols with
    | .error e => .error e
    | .ok result =>
      .ok ((optTabRow (fun i => optTab (fun j =>
          (rawGet m.data i j).bind (fun x =>
            (rawGet other.data i j).bind (fun y => some (x + y))))
          m.cols.toNat) m.rows.toNat).map
        (fun d => { result with data := d }))

/-- `Matrix::multiply(const Matrix&)`: throws `invalid_argument` unless
`cols == other.rows`, then builds `Matrix result(rows, other.cols)` and
fills each cell with the accumulated inner product
`sum += data[i][k] * other.data[k][j]` for `k < cols`. -/
def Matrix.multiply (m other : Matrix) : Except MatrixError (Option Matrix) :=
  if m.cols ≠ other.rows then .error .dimensionMismatch
  else
    match Matrix.construct m.rows other.cols with
    | .error e => .error e
    | .ok result =>
      .ok ((optTabRow (fun i => optTab (fun j =>
          optSum (fun k =>
            (rawGet m.data i k).bind (fun x =>
              (rawGet other.data k j).bind (fun y => some (x * y))))
            m.cols.toNat)
          other.cols.toNat) m.rows.toNat).map
        (fun d => { result with data := d }))

/-- The value observable at position `(i, j)` of a matrix (the defaulted
raw read; on a well-formed matrix with in-range indices this is exactly
the stored value). -/
def Matrix.entry (m : Matrix) (i j : Nat) : ℚ :=
  (rawGet m.data i j).getD 0

/-- The class invariant every live C++ instance satisfies: positive
dimensions and a `data` vector of exactly `rows` rows of `cols` entries. -/
def Matrix.WF (m : Matrix) : Prop :=
  0 < m.rows ∧ 0 < m.cols ∧ m.data.length = m.rows.toNat ∧
    ∀ row ∈ m.data, row.length = m.cols.toNat

instance (m : Matrix) : Decidable m.WF := by
  unfold Matrix.WF; infer_instance

/-- A store of live instances; a handle is an index into the list. -/
abbrev Store := List Matrix

/-- One call `m.set(r, c, v)` on the instance with handle `id` in store
`s`: the pair is the outcome (normal return or thrown exception) together
with the store after the call; a thrown exception leaves the store as it
was, since the guard precedes the write.  `none` is undefined behaviour. -/
def setStep (s : Store) (id : Nat) (r c : Int) (v : ℚ) :
    Option (Except MatrixError Unit × Store) :=
  (s[id]?).bind (fun m =>
    match m.set r c v with
    | .error e => some (.error e, s)
    | .ok none => none
    | .ok (some m₂) => some (.ok (), s.set id m₂))

/-- One call `C = A.add(B)` with handles `ia`, `ib`: a successful call
allocates the result as a fresh instance (appended, handle `s.length`);
a thrown exception allocates nothing and leaves the store as it was. -/
def addStep (s : Store) (ia ib : Nat) : Option (Except MatrixError Unit × Store) :=
  (s[ia]?).bind (fun a => (s[ib]?).bind (fun b =>
    match a.add b with
    | .error e => some (.error e, s)
    | .ok none => none
    | .ok (some cm) => some (.ok (), s ++ [cm])))

/-- One call `C = A.multiply(B)` with handles `ia`, `ib`, as `addStep`. -/
def multiplyStep (s : Store) (ia ib : Nat) : Option (Except MatrixError Unit × Store) :=
  (s[ia]?).bind (fun a => (s[ib]?).bind (fun b =>
    match a.multiply b with
    | .error e => some (.error e, s)
    | .ok none => none
    | .ok (some cm) => some (.ok (), s ++ [cm])))

/-- The result of filling an `r.toNat × c.toNat` grid with `g`. -/
def tabMatrix (r c : Int) (g : Nat → Nat → ℚ) : Matrix :=
  ⟨r, c, (List.range r.toNat).map (fun i => (List.range c.toNat).map (fun j => g i j))⟩

/-- Concrete example instance `[[1,2],[3,4]]` (the spec's worked example). -/
def exA : Matrix := ⟨2, 2, [[1, 2], [3, 4]]⟩

/-- Concrete example instance `[[5,6],[7,8]]` (the spec's worked example). -/
def exB : Matrix := ⟨2, 2, [[5, 6], [7, 8]]⟩

/-- Concrete 2×2 zero instance. -/
def exZ : Matrix := ⟨2, 2, [[0, 0], [0, 0]]⟩

/-- Concrete 2×2 identity instance. -/
def exI : Matrix := ⟨2, 2, [[1, 0], [0, 1]]⟩

/-- Concrete 2×3 instance, shape-incompatible with `exB` for `multiply`. -/
def exC : Matrix := ⟨2, 3, [[1, 2, 3], [4, 5, 6]]⟩

/-! ### Helper lemmas -/

theorem rawGet_wf (m : Matrix) (hm : m.WF) {i j : Nat}
    (hi : i < m.rows.toNat) (hj : j < m.cols.toNat) :
    rawGet m.data i j = some (m.entry i j) := by
  obtain ⟨-, -, hlen, hrow⟩ := hm
  have hi' : i < m.data.length := hlen ▸ hi
  have hj' : j < m.data[i].length := by
    rw [hrow _ (List.getElem_mem hi')]; exact hj
  have h1 : m.data[i]? = some m.data[i] := List.getElem?_eq_getElem hi'
  have h2 : m.data[i][j]? = some (m.data[i][j]) := List.getElem?_eq_getElem hj'
  simp [rawGet, Matrix.entry, h1, h2]

theorem optTab_eq (f : Nat → Option ℚ) (g : Nat → ℚ) (n : Nat)
    (h : ∀ i, i < n → f i = some (g i)) :
    optTab f n = some ((List.range n).map g) := by
  induction n with
  | zero => simp [optTab]
  | succ k ih =>
    simp only [optTab]
    rw [ih (fun i hi => h i (Nat.lt_succ_of_lt hi)), h k (Nat.lt_succ_self k)]
    simp [List.range_succ]

theorem optTabRow_eq (f : Nat → Option (List ℚ)) (g : Nat → List ℚ) (n : Nat)
    (h : ∀ i, i < n → f i = some (g i)) :
    optTabRow f n = some ((List.range n).map g) := by
  induction n with
  | zero => simp [optTabRow]
  | succ k ih =>
    simp only [optTabRow]
    rw [ih (fun i hi => h i (Nat.lt_succ_of_lt hi)), h k (Nat.lt_succ_self k)]
    simp [List.range_succ]

theorem optSum_eq (f : Nat → Option ℚ) (g : Nat → ℚ) (n : Nat)
    (h : ∀ k, k < n → f k = some (g k)) :
    optSum f n = some (∑ k ∈ Finset.range n, g k) := by
  induction n with
  | zero => simp [optSum]
  | succ k ih =>
    simp only [optSum]
    rw [ih (fun i hi => h i (Nat.lt_succ_of_lt hi)), h k (Nat.lt_succ_self k)]
    simp [Finset.sum_range_succ]

theorem tabMatrix_entry (r c : Int) (g : Nat → Nat → ℚ) {i j : Nat}
    (hi : i < r.toNat) (hj : j < c.toNat) :
    (tabMatrix r c g).entry i j = g i j := by
  simp [tabMatrix, Matrix.entry, rawGet, hi, hj]

theorem tabMatrix_wf (r c : Int) (hr : 0 < r) (hc : 0 < c) (g : Nat → Nat → ℚ) :
    (tabMatrix r c g).WF := by
  refine ⟨hr, hc, by simp [tabMatrix], ?_⟩
  intro row hrow
  simp only [tabMatrix, List.mem_map] at hrow
  obtain ⟨i, -, rfl⟩ := hrow
  simp [tabMatrix]

theorem construct_ok (r c : Int) (hr : 0 < r) (hc : 0 < c) :
    Matrix.construct r c =
      .ok ⟨r, c, List.replicate r.toNat (List.replicate c.toNat 0)⟩ := by
  unfold Matrix.construct
  rw [if_neg (by omega)]

theorem get_ok (m : Matrix) (hm : m.WF) {r c : Int} (h : ¬ m.oob r c) :
    m.get r c = .ok (some (m.entry r.toNat c.toNat)) := by
  unfold Matrix.get
  rw [if_neg h]
  unfold Matrix.oob at h
  push_neg at h
  obtain ⟨h1, h2, h3, h4⟩ := h
  rw [rawGet_wf m hm (by omega) (by omega)]

theorem add_ok (m other : Matrix) (hm : m.WF) (ho : other.WF)
    (hr : m.rows = other.rows) (hc : m.cols = other.cols) :
    m.add other = .ok (some (tabMatrix m.rows m.cols
      (fun i j => m.entry i j + other.entry i j))) := by
  have hrpos : 0 < m.rows := hm.1
  have hcpos : 0 < m.cols := hm.2.1
  unfold Matrix.add
  rw [if_neg (by push_neg; exact ⟨hr, hc⟩), construct_ok m.rows m.cols hrpos hcpos]
  rw [optTabRow_eq _ (fun i => (List.range m.cols.toNat).map
      (fun j => m.entry i j + other.entry i j)) _ ?_]
  · rfl
  · intro i hi
    rw [optTab_eq _ (fun j => m.entry i j + other.entry i j) _ ?_]
    intro j hj
    rw [rawGet_wf m hm hi hj,
      rawGet_wf other ho (by rw [← hr]; exact hi) (by rw [← hc]; exact hj)]
    rfl

theorem multiply_ok (m other : Matrix) (hm : m.WF) (ho : other.WF)
    (h : m.cols = other.rows) :
    m.multiply other = .ok (some (tabMatrix m.rows other.cols
      (fun i j => ∑ k ∈ Finset.range m.cols.toNat, m.entry i k * other.entry k j))) := by
  have hrpos : 0 < m.rows := hm.1
  have hcpos : 0 < other.cols := ho.2.1
  unfold Matrix.multiply
  rw [if_neg (by push_neg; exact h), construct_ok m.rows other.cols hrpos hcpos]
  rw [optTabRow_eq _ (fun i => (List.range other.cols.toNat).map
      (fun j => ∑ k ∈ Finset.range m.cols.toNat, m.entry i k * other.entry k j)) _ ?_]
  · rfl
  · intro i hi
    rw [optTab_eq _
      (fun j => ∑ k ∈ Finset.range m.cols.toNat, m.entry i k * other.entry k j) _ ?_]
    intro j hj
    rw [optSum_eq _ (fun k => m.entry i k * other.entry k j) _ ?_]
    intro k hk
    rw [rawGet_wf m hm hi hk, rawGet_wf other ho (by rw [← h]; exact hk) hj]
    rfl

theorem set_ok (m : Matrix) (hm : m.WF) {r c : Int} (h : ¬ m.oob r c) (v : ℚ) :
    ∃ m₂, m.set r c v = .ok (some m₂) ∧ m₂.rows = m.rows ∧ m₂.cols = m.cols ∧ m₂.WF ∧
      m₂.entry r.toNat c.toNat = v ∧
      ∀ i j, i < m.rows.toNat → j < m.cols.toNat → ¬(i = r.toNat ∧ j = c.toNat) →
        m₂.entry i j = m.entry i j := by
  obtain ⟨hrpos, hcpos, hlen, hrowlen⟩ := hm
  have hob := h
  unfold Matrix.oob at hob
  push_neg at hob
  obtain ⟨h1, h2, h3, h4⟩ := hob
  have hi0 : r.toNat < m.data.length := by rw [hlen]; omega
  have hrowmem : m.data[r.toNat] ∈ m.data := List.getElem_mem hi0
  have hj0 : c.toNat < (m.data[r.toNat]).length := by rw [hrowlen _ hrowmem]; omega
  have hd : m.data[r.toNat]? = some m.data[r.toNat] := List.getElem?_eq_getElem hi0
  have hrj : m.data[r.toNat][c.toNat]? = some (m.data[r.toNat][c.toNat]) :=
    List.getElem?_eq_getElem hj0
  refine ⟨⟨m.rows, m.cols, m.data.set r.toNat ((m.data[r.toNat]).set c.toNat v)⟩,
    ?_, rfl, rfl, ?_, ?_, ?_⟩
  · unfold Matrix.set
    rw [if_neg h]
    simp [rawSet, hd, hrj]
  · refine ⟨hrpos, hcpos, by simpa using hlen, ?_⟩
    intro row hrow
    rcases List.mem_or_eq_of_mem_set hrow with hmem | rfl
    · exact hrowlen _ hmem
    · rw [List.length_set]
      exact hrowlen _ hrowmem
  · simp only [Matrix.entry, rawGet]
    rw [List.getElem?_set_self (by simpa using hi0)]
    simp [List.getElem?_set_self hj0]
  · intro i j hi hj hne
    simp only [Matrix.entry, rawGet]
    rcases eq_or_ne i r.toNat with rfl | hir
    · have hjne : j ≠ c.toNat := fun hjc => hne ⟨rfl, hjc⟩
      rw [List.getElem?_set_self (by simpa using hi0), hd]
      simp [List.getElem?_set_ne (Ne.symm hjne)]
    · rw [List.getElem?_set_ne (Ne.symm hir)]

theorem setStep_frame_other (s₂ : Store) (idn : Nat) (r c : Int) (v : ℚ)
    (out : Except MatrixError Unit) (s₃ : Store)
    (h : setStep s₂ idn r c v = some (out, s₃)) :
    ∀ id, id ≠ idn → s₃[id]? = s₂[id]? := by
  intro id hid
  unfold setStep at h
  cases hs : s₂[idn]? with
  | none => rw [hs] at h; exact absurd h (by simp)
  | some m =>
    rw [hs, Option.some_bind] at h
    split at h
    · simp only [Option.some.injEq, Prod.mk.injEq] at h
      rw [← h.2]
    · exact absurd h (by simp)
    · simp only [Option.some.injEq, Prod.mk.injEq] at h
      rw [← h.2, List.getElem?_set_ne (Ne.symm hid)]

/-! ### Claim theorems -/

/-- Claim C1: `A.multiply(B)` fails with a dimension-mismatch error iff
`A.cols ≠ B.rows`; otherwise it returns a new matrix of shape
`(A.rows, B.cols)` whose `(i,j)` entry is the inner product
`∑ k < A.cols, A[i][k] * B[k][j]`. -/
theorem multiply_spec (a b : Matrix) (ha : a.WF) (hb : b.WF) :
    (a.multiply b = .error .dimensionMismatch ↔ a.cols ≠ b.rows) ∧
    (a.cols = b.rows →
      ∃ cm, a.multiply b = .ok (some cm) ∧ cm.rows = a.rows ∧ cm.cols = b.cols ∧
        ∀ i j, i < a.rows.toNat → j < b.cols.toNat →
          cm.entry i j = ∑ k ∈ Finset.range a.cols.toNat, a.entry i k * b.entry k j) := by
  constructor
  · constructor
    · intro herr
      by_contra heq
      rw [multiply_ok a b ha hb heq] at herr
      exact absurd herr (by simp)
    · intro hne
      unfold Matrix.multiply
      rw [if_pos hne]
  · intro heq
    refine ⟨_, multiply_ok a b ha hb heq, rfl, rfl, ?_⟩
    intro i j hi hj
    exact tabMatrix_entry _ _ _ hi hj

/-- Witness for C1: the claim theorem applied to the spec's worked example
`[[1,2],[3,4]] * [[5,6],[7,8]]`. -/
theorem multiply_spec_witness :
    (exA.multiply exB = .error .dimensionMismatch ↔ exA.cols ≠ exB.rows) ∧
    (exA.cols = exB.rows →
      ∃ cm, exA.multiply exB = .ok (some cm) ∧ cm.rows = exA.rows ∧ cm.cols = exB.cols ∧
        ∀ i j, i < exA.rows.toNat → j < exB.cols.toNat →
          cm.entry i j = ∑ k ∈ Finset.range exA.cols.toNat, exA.entry i k * exB.entry k j) :=
  multiply_spec exA exB (by decide) (by decide)

/-- Claim C2: `A.add(B)` fails with a dimension-mismatch error iff the
shapes differ; otherwise it returns a new matrix of the same shape whose
`(i,j)` entry is `A[i][j] + B[i][j]`. -/
theorem add_spec (a b : Matrix) (ha : a.WF) (hb : b.WF) :
    (a.add b = .error .dimensionMismatch ↔ (a.rows ≠ b.rows ∨ a.cols ≠ b.cols)) ∧
    (a.rows = b.rows → a.cols = b.cols →
      ∃ cm, a.add b = .ok (some cm) ∧ cm.rows = a.rows ∧ cm.cols = a.cols ∧
        ∀ i j, i < a.rows.toNat → j < a.cols.toNat →
          cm.entry i j = a.entry i j + b.entry i j) := by
  constructor
  · constructor
    · intro herr
      by_contra heq
      push_neg at heq
      rw [add_ok a b ha hb heq.1 heq.2] at herr
      exact absurd herr (by simp)
    · intro hne
      unfold Matrix.add
      rw [if_pos hne]
  · intro hr hc
    refine ⟨_, add_ok a b ha hb hr hc, rfl, rfl, ?_⟩
    intro i j hi hj
    exact tabMatrix_entry _ _ _ hi hj

/-- Witness for C2: the claim theorem applied to
`[[1,2],[3,4]] + [[5,6],[7,8]]`. -/
theorem add_spec_witness :
    (exA.add exB = .error .dimensionMismatch ↔ (exA.rows ≠ exB.rows ∨ exA.cols ≠ exB.cols)) ∧
    (exA.rows = exB.rows → exA.cols = exB.cols →
      ∃ cm, exA.add exB = .ok (some cm) ∧ cm.rows = exA.rows ∧ cm.cols = exA.cols ∧
        ∀ i j, i < exA.rows.toNat → j < exA.cols.toNat →
          cm.entry i j = exA.entry i j + exB.entry i j) :=
  add_spec exA exB (by decide) (by decide)

/-- Claim C3: `Matrix(r, c)` fails with an invalid-dimensions error iff
`r ≤ 0 ∨ c ≤ 0`; on success the result has shape `(r, c)` and every entry
is `0`. -/
theorem construct_spec (r c : Int) :
    (Matrix.construct r c = .error .invalidDimensions ↔ (r ≤ 0 ∨ c ≤ 0)) ∧
    (0 < r → 0 < c →
      ∃ m, Matrix.construct r c = .ok m ∧ m.rows = r ∧ m.cols = c ∧ m.WF ∧
        ∀ i j, i < r.toNat → j < c.toNat → m.entry i j = 0) := by
  constructor
  · constructor
    · intro herr
      by_contra hpos
      push_neg at hpos
      rw [construct_ok r c hpos.1 hpos.2] at herr
      exact absurd herr (by simp)
    · intro hle
      unfold Matrix.construct
      rw [if_pos hle]
  · intro hr hc
    refine ⟨_, construct_ok r c hr hc, rfl, rfl, ?_, ?_⟩
    · refine ⟨hr, hc, by simp, ?_⟩
      intro row hrow
      rw [List.eq_of_mem_replicate hrow]
      simp
    · intro i j hi hj
      simp [Matrix.entry, rawGet, List.getElem?_replicate, hi, hj]

/-- Witness for C3: the claim theorem applied at `(3, 4)`, the spec's
construction example. -/
theorem construct_spec_witness :
    (Matrix.construct 3 4 = .error .invalidDimensions ↔ ((3:Int) ≤ 0 ∨ (4:Int) ≤ 0)) ∧
    ((0:Int) < 3 → (0:Int) < 4 →
      ∃ m, Matrix.construct 3 4 = .ok m ∧ m.rows = 3 ∧ m.cols = 4 ∧ m.WF ∧
        ∀ i j, i < (3:Int).toNat → j < (4:Int).toNat → m.entry i j = 0) :=
  construct_spec 3 4

/-- Claim C4: `get` and `set` fail with an index-out-of-range error iff
`r < 0 ∨ r ≥ rows ∨ c < 0 ∨ c ≥ cols`; with in-range indices `get`
returns the stored value (and, being read-only in its signature, has no
side effect on the matrix). -/
theorem get_set_spec (m : Matrix) (hm : m.WF) (r c : Int) (v : ℚ) :
    (m.get r c = .error .indexOutOfRange ↔ (r < 0 ∨ m.rows ≤ r ∨ c < 0 ∨ m.cols ≤ c)) ∧
    (m.set r c v = .error .indexOutOfRange ↔ (r < 0 ∨ m.rows ≤ r ∨ c < 0 ∨ m.cols ≤ c)) ∧
    (¬(r < 0 ∨ m.rows ≤ r ∨ c < 0 ∨ m.cols ≤ c) →
      m.get r c = .ok (some (m.entry r.toNat c.toNat))) := by
  refine ⟨⟨?_, ?_⟩, ⟨?_, ?_⟩, ?_⟩
  · intro herr
    by_contra hin
    rw [get_ok m hm hin] at herr
    exact absurd herr (by simp)
  · intro hoob
    unfold Matrix.get
    rw [if_pos (show m.oob r c from hoob)]
  · intro herr
    by_contra hin
    obtain ⟨m₂, hset, -⟩ := set_ok m hm hin v
    rw [hset] at herr
    exact absurd herr (by simp)
  · intro hoob
    unfold Matrix.set
    rw [if_pos (show m.oob r c from hoob)]
  · intro hin
    exact get_ok m hm hin

/-- Witness for C4: the claim theorem applied to `[[1,2],[3,4]]` at
index `(1, 1)`. -/
theorem get_set_spec_witness :
    (exA.get 1 1 = .error .indexOutOfRange ↔
      ((1:Int) < 0 ∨ exA.rows ≤ 1 ∨ (1:Int) < 0 ∨ exA.cols ≤ 1)) ∧
    (exA.set 1 1 (15/2) = .error .indexOutOfRange ↔
      ((1:Int) < 0 ∨ exA.rows ≤ 1 ∨ (1:Int) < 0 ∨ exA.cols ≤ 1)) ∧
    (¬((1:Int) < 0 ∨ exA.rows ≤ 1 ∨ (1:Int) < 0 ∨ exA.cols ≤ 1) →
      exA.get 1 1 = .ok (some (exA.entry (1:Int).toNat (1:Int).toNat))) :=
  get_set_spec exA (by decide) 1 1 (15/2)

/-- Claim C5: adding a same-shaped zero matrix returns a matrix equal to
the left operand elementwise. -/
theorem add_zero_spec (a z : Matrix) (ha : a.WF) (hz : z.WF)
    (hr : z.rows = a.rows) (hc : z.cols = a.cols)
    (h0 : ∀ i, i < a.rows.toNat → ∀ j, j < a.cols.toNat → z.entry i j = 0) :
    ∃ cm, a.add z = .ok (some cm) ∧ cm.rows = a.rows ∧ cm.cols = a.cols ∧
      ∀ i j, i < a.rows.toNat → j < a.cols.toNat → cm.entry i j = a.entry i j := by
  refine ⟨_, add_ok a z ha hz hr.symm hc.symm, rfl, rfl, ?_⟩
  intro i j hi hj
  rw [tabMatrix_entry _ _ _ hi hj, h0 i hi j hj, add_zero]

/-- Witness for C5: the claim theorem applied to `[[1,2],[3,4]]` and the
2×2 zero matrix. -/
theorem add_zero_spec_witness :
    ∃ cm, exA.add exZ = .ok (some cm) ∧ cm.rows = exA.rows ∧ cm.cols = exA.cols ∧
      ∀ i j, i < exA.rows.toNat → j < exA.cols.toNat → cm.entry i j = exA.entry i j :=
  add_zero_spec exA exZ (by decide) (by decide) (by decide) (by decide) (by decide)

/-- Claim C6: multiplying a square matrix by the same-sized identity
matrix returns a matrix equal to the left operand elementwise. -/
theorem multiply_identity_spec (n : Int) (a idm : Matrix) (ha : a.WF) (hw : idm.WF)
    (har : a.rows = n) (hac : a.cols = n) (hir : idm.rows = n) (hic : idm.cols = n)
    (hid : ∀ k, k < n.toNat → ∀ j, j < n.toNat → idm.entry k j = if k = j then 1 else 0) :
    ∃ cm, a.multiply idm = .ok (some cm) ∧ cm.rows = n ∧ cm.cols = n ∧
      ∀ i j, i < n.toNat → j < n.toNat → cm.entry i j = a.entry i j := by
  have hcr : a.cols = idm.rows := by rw [hac, hir]
  refine ⟨_, multiply_ok a idm ha hw hcr, ?_, ?_, ?_⟩
  · simpa [tabMatrix] using har
  · simpa [tabMatrix] using hic
  · intro i j hi' hj'
    rw [tabMatrix_entry _ _ _ (by rw [har]; exact hi') (by rw [hic]; exact hj')]
    have hsum : ∀ k ∈ Finset.range a.cols.toNat,
        a.entry i k * idm.entry k j = if k = j then a.entry i k else 0 := by
      intro k hk
      rw [Finset.mem_range, hac] at hk
      rw [hid k hk j hj']
      split <;> simp
    rw [Finset.sum_congr rfl hsum,
      Finset.sum_ite_eq' (Finset.range a.cols.toNat) j (fun k => a.entry i k)]
    rw [hac]
    simp [hj']

/-- Witness for C6: the claim theorem applied to `[[1,2],[3,4]]` and the
2×2 identity matrix. -/
theorem multiply_identity_spec_witness :
    ∃ cm, exA.multiply exI = .ok (some cm) ∧ cm.rows = 2 ∧ cm.cols = 2 ∧
      ∀ i j, i < (2:Int).toNat → j < (2:Int).toNat → cm.entry i j = exA.entry i j :=
  multiply_identity_spec 2 exA exI (by decide) (by decide) (by decide) (by decide)
    (by decide) (by decide) (by decide)

/-- Claim C7: for same-shaped operands, `A.add(B)` and `B.add(A)` both
succeed and are equal elementwise (exactly). -/
theorem add_comm_spec (a b : Matrix) (ha : a.WF) (hb : b.WF)
    (hr : a.rows = b.rows) (hc : a.cols = b.cols) :
    ∃ c₁ c₂, a.add b = .ok (some c₁) ∧ b.add a = .ok (some c₂) ∧
      c₁.rows = c₂.rows ∧ c₁.cols = c₂.cols ∧
      ∀ i j, i < a.rows.toNat → j < a.cols.toNat → c₁.entry i j = c₂.entry i j := by
  refine ⟨_, _, add_ok a b ha hb hr hc, add_ok b a hb ha hr.symm hc.symm,
    by simpa [tabMatrix] using hr, by simpa [tabMatrix] using hc, ?_⟩
  intro i j hi hj
  rw [tabMatrix_entry _ _ _ hi hj,
    tabMatrix_entry _ _ _ (by rw [← hr]; exact hi) (by rw [← hc]; exact hj)]
  exact add_comm _ _

/-- Witness for C7: the claim theorem applied to `[[1,2],[3,4]]` and
`[[5,6],[7,8]]`. -/
theorem add_comm_spec_witness :
    ∃ c₁ c₂, exA.add exB = .ok (some c₁) ∧ exB.add exA = .ok (some c₂) ∧
      c₁.rows = c₂.rows ∧ c₁.cols = c₂.cols ∧
      ∀ i j, i < exA.rows.toNat → j < exA.cols.toNat → c₁.entry i j = c₂.entry i j :=
  add_comm_spec exA exB (by decide) (by decide) (by decide) (by decide)

/-- Claim C8: a successful `add`/`multiply` call allocates a fresh result
and mutates neither operand: every previously live instance (in
particular both operands) is unchanged by the call, and any later `set`
on the fresh result leaves every previously live instance unchanged. -/
theorem nonmutation_spec (s : Store) (ia ib : Nat) (a b : Matrix)
    (hga : s[ia]? = some a) (hgb : s[ib]? = some b) (ha : a.WF) (hb : b.WF) :
    (a.rows = b.rows → a.cols = b.cols →
      ∃ cm, addStep s ia ib = some (.ok (), s ++ [cm]) ∧
        (∀ id, id < s.length → (s ++ [cm])[id]? = s[id]?) ∧
        (∀ r c v out s₃, setStep (s ++ [cm]) s.length r c v = some (out, s₃) →
          ∀ id, id < s.length → s₃[id]? = s[id]?)) ∧
    (a.cols = b.rows →
      ∃ cm, multiplyStep s ia ib = some (.ok (), s ++ [cm]) ∧
        (∀ id, id < s.length → (s ++ [cm])[id]? = s[id]?) ∧
        (∀ r c v out s₃, setStep (s ++ [cm]) s.length r c v = some (out, s₃) →
          ∀ id, id < s.length → s₃[id]? = s[id]?)) := by
  constructor
  · intro hr hc
    refine ⟨tabMatrix a.rows a.cols (fun i j => a.entry i j + b.entry i j), ?_, ?_, ?_⟩
    · unfold addStep
      rw [hga, Option.some_bind, hgb, Option.some_bind, add_ok a b ha hb hr hc]
    · intro id hid
      simp [List.getElem?_append, hid]
    · intro r c v out s₃ hstep id hid
      rw [setStep_frame_other _ _ _ _ _ _ _ hstep id (by omega)]
      simp [List.getElem?_append, hid]
  · intro hcr
    refine ⟨tabMatrix a.rows b.cols
      (fun i j => ∑ k ∈ Finset.range a.cols.toNat, a.entry i k * b.entry k j), ?_, ?_, ?_⟩
    · unfold multiplyStep
      rw [hga, Option.some_bind, hgb, Option.some_bind, multiply_ok a b ha hb hcr]
    · intro id hid
      simp [List.getElem?_append, hid]
    · intro r c v out s₃ hstep id hid
      rw [setStep_frame_other _ _ _ _ _ _ _ hstep id (by omega)]
      simp [List.getElem?_append, hid]

/-- Witness for C8: the claim theorem applied to the two-instance store
`[exA, exB]`. -/
theorem nonmutation_spec_witness :
    (exA.rows = exB.rows → exA.cols = exB.cols →
      ∃ cm, addStep [exA, exB] 0 1 = some (.ok (), [exA, exB] ++ [cm]) ∧
        (∀ id, id < ([exA, exB] : Store).length →
          ([exA, exB] ++ [cm])[id]? = ([exA, exB] : Store)[id]?) ∧
        (∀ r c v out s₃,
          setStep ([exA, exB] ++ [cm]) ([exA, exB] : Store).length r c v = some (out, s₃) →
          ∀ id, id < ([exA, exB] : Store).length → s₃[id]? = ([exA, exB] : Store)[id]?)) ∧
    (exA.cols = exB.rows →
      ∃ cm, multiplyStep [exA, exB] 0 1 = some (.ok (), [exA, exB] ++ [cm]) ∧
        (∀ id, id < ([exA, exB] : Store).length →
          ([exA, exB] ++ [cm])[id]? = ([exA, exB] : Store)[id]?) ∧
        (∀ r c v out s₃,
          setStep ([exA, exB] ++ [cm]) ([exA, exB] : Store).length r c v = some (out, s₃) →
          ∀ id, id < ([exA, exB] : Store).length → s₃[id]? = ([exA, exB] : Store)[id]?)) :=
  nonmutation_spec [exA, exB] 0 1 exA exB rfl rfl (by decide) (by decide)

/-- Claim C9: `set(r, c, v)` mutates the receiver only, and only at
`(r, c)`: on success every other live instance, the receiver's shape and
every other entry are unchanged while entry `(r, c)` becomes `v`; on an
out-of-range failure the store is left exactly as it was. -/
theorem set_frame_spec (s : Store) (id : Nat) (m : Matrix)
    (hg : s[id]? = some m) (hm : m.WF) (r c : Int) (v : ℚ) :
    (¬(r < 0 ∨ m.rows ≤ r ∨ c < 0 ∨ m.cols ≤ c) →
      ∃ m₂, setStep s id r c v = some (.ok (), s.set id m₂) ∧
        (∀ k, k ≠ id → (s.set id m₂)[k]? = s[k]?) ∧
        m₂.rows = m.rows ∧ m₂.cols = m.cols ∧
        m₂.entry r.toNat c.toNat = v ∧
        (∀ i j, i < m.rows.toNat → j < m.cols.toNat → ¬(i = r.toNat ∧ j = c.toNat) →
          m₂.entry i j = m.entry i j)) ∧
    ((r < 0 ∨ m.rows ≤ r ∨ c < 0 ∨ m.cols ≤ c) →
      setStep s id r c v = some (.error .indexOutOfRange, s)) := by
  constructor
  · intro hin
    obtain ⟨m₂, hset, hrw, hcw, hwf, hv, hframe⟩ :=
      set_ok m hm (show ¬ m.oob r c from hin) v
    refine ⟨m₂, ?_, ?_, hrw, hcw, hv, hframe⟩
    · unfold setStep
      rw [hg, Option.some_bind, hset]
    · intro k hk
      exact List.getElem?_set_ne (Ne.symm hk)
  · intro hoob
    unfold setStep
    rw [hg, Option.some_bind]
    unfold Matrix.set
    rw [if_pos (show m.oob r c from hoob)]

/-- Witness for C9: the claim theorem applied to the one-instance store
`[exA]` at index `(1, 1)`. -/
theorem set_frame_spec_witness :
    (¬((1:Int) < 0 ∨ exA.rows ≤ 1 ∨ (1:Int) < 0 ∨ exA.cols ≤ 1) →
      ∃ m₂, setStep [exA] 0 1 1 (15/2) = some (.ok (), ([exA] : Store).set 0 m₂) ∧
        (∀ k, k ≠ 0 → (([exA] : Store).set 0 m₂)[k]? = ([exA] : Store)[k]?) ∧
        m₂.rows = exA.rows ∧ m₂.cols = exA.cols ∧
        m₂.entry (1:Int).toNat (1:Int).toNat = 15/2 ∧
        (∀ i j, i < exA.rows.toNat → j < exA.cols.toNat →
          ¬(i = (1:Int).toNat ∧ j = (1:Int).toNat) →
          m₂.entry i j = exA.entry i j)) ∧
    (((1:Int) < 0 ∨ exA.rows ≤ 1 ∨ (1:Int) < 0 ∨ exA.cols ≤ 1) →
      setStep [exA] 0 1 1 (15/2) = some (.error .indexOutOfRange, [exA])) :=
  set_frame_spec [exA] 0 exA rfl (by decide) 1 1 (15/2)

/-- Claim C10: under the class invariant, every raw `data[i][j]` access
performed after the guard checks is in bounds: the `none`
(undefined-behaviour) branch of the `Option`-returning raw indexing is
unreachable, so `get`, `set`, `add` and `multiply` all return
`.ok (some _)` whenever their guards pass. -/
theorem totality_spec (a b : Matrix) (ha : a.WF) (hb : b.WF) :
    (∀ r c : Int, ¬(r < 0 ∨ a.rows ≤ r ∨ c < 0 ∨ a.cols ≤ c) →
      ∃ v, a.get r c = .ok (some v)) ∧
    (∀ r c : Int, ∀ v : ℚ, ¬(r < 0 ∨ a.rows ≤ r ∨ c < 0 ∨ a.cols ≤ c) →
      ∃ m₂, a.set r c v = .ok (some m₂)) ∧
    (a.rows = b.rows → a.cols = b.cols → ∃ cm, a.add b = .ok (some cm)) ∧
    (a.cols = b.rows → ∃ cm, a.multiply b = .ok (some cm)) := by
  refine ⟨?_, ?_, ?_, ?_⟩
  · intro r c hin
    exact ⟨_, get_ok a ha hin⟩
  · intro r c v hin
    obtain ⟨m₂, hset, -⟩ := set_ok a ha hin v
    exact ⟨m₂, hset⟩
  · intro hr hc
    exact ⟨_, add_ok a b ha hb hr hc⟩
  · intro h
    exact ⟨_, multiply_ok a b ha hb h⟩

/-- Witness for C10: the claim theorem applied to `[[1,2],[3,4]]` and
`[[5,6],[7,8]]`. -/
theorem totality_spec_witness :
    (∀ r c : Int, ¬(r < 0 ∨ exA.rows ≤ r ∨ c < 0 ∨ exA.cols ≤ c) →
      ∃ v, exA.get r c = .ok (some v)) ∧
    (∀ r c : Int, ∀ v : ℚ, ¬(r < 0 ∨ exA.rows ≤ r ∨ c < 0 ∨ exA.cols ≤ c) →
      ∃ m₂, exA.set r c v = .ok (some m₂)) ∧
    (exA.rows = exB.rows → exA.cols = exB.cols → ∃ cm, exA.add exB = .ok (some cm)) ∧
    (exA.cols = exB.rows → ∃ cm, exA.multiply exB = .ok (some cm)) :=
  totality_spec exA exB (by decide) (by decide)

end MathLib
